import Mathlib

/-!
Shallow embedding of `src/atom/src/atom.cpp` (the `atom.catom.CAtom` type):
per-instance slot storage for registered members, and a per-instance
sorted signal table mapping signal identity to a callback set.

Modelling conventions:
* Python object values stored in slots are an abstract type `Obj`.
* Attribute names (interned name objects, dict keys) are `String`.
* A signal's identity is its address, modelled as a `Nat`; the pointer
  order used by the sorted vector is `<` on `Nat`.
* Callback handles are modelled by a `Nat` identity; callbacks are opaque
  to this subsystem (their execution is external), so `dispatch`/`emit`
  return the registration-ordered list of callback identities that would
  be invoked rather than running them.
* A raised Python exception is an `Err` value; fallible C functions
  return `Except Err _` (a null return with an exception set becomes
  `.error e`).
* `NULL` slot entries are `Option.none`; the slot array `m_values` is a
  `List (Option Obj)` whose length is fixed by `tp_alloc` at `Atom_new`.
-/

namespace AtomSpec

/-- A raised Python exception: `cppy::type_error` produces `typeError`;
anything raised by an external collaborator (a member's `validate` or
`defaultValue`) is an arbitrary `Err`, with `other` covering non-TypeError
exceptions. -/
inductive Err where
  | typeError (msg : String)
  | other (tag : String)
deriving DecidableEq, Repr

/-- A Python object as seen by the argument checks of `Atom_connect` /
`Atom_emit`: `Signal::TypeCheck` succeeds exactly on `sig` values (whose
`Nat` is the signal's identity address) and `PyCallable_Check` succeeds
exactly on `callable` values (whose `Nat` is the callback handle's
identity). Everything else is a `plain` payload. -/
inductive PyVal (Obj : Type) where
  | sig (addr : Nat)
  | callable (id : Nat)
  | plain (o : Obj)
deriving DecidableEq, Repr

/-- `Signal::TypeCheck` -/
def Signal.TypeCheck {Obj : Type} : PyVal Obj → Bool
  | .sig _ => true
  | _ => false

/-- `PyCallable_Check` -/
def PyCallable_Check {Obj : Type} : PyVal Obj → Bool
  | .callable _ => true
  | _ => false

/-- A member descriptor (declared in `member.h`, an external collaborator
per the spec): a slot index plus the `validate` and `defaultValue`
operations. The owner instance argument of the C++ signatures is opaque
to the slot mechanics in `atom.cpp` and is omitted; `validate` and
`defaultValue` receive the attribute name and (for `validate`) the new
value, and may fail with any `Err`. -/
structure Member (Obj : Type) where
  index : Nat
  validate : String → Obj → Except Err Obj
  defaultValue : String → Except Err Obj

/-- Modelled from the spec: `CallbackSet` (its source, `callbackset.h`,
is not among the provided files). Per the spec it holds
registration-ordered callback handles; the internal single/extras split
is a space optimization with no externally observable effect, so the
model is one ordered list. `CallbackSet(callback)` constructs a
one-element set; `add` appends (no deduplication); `remove` removes the
first matching occurrence by identity; `dispatch` invokes the callbacks
in registration order (modelled by returning them in order). -/
structure CallbackSet where
  callbacks : List Nat
deriving DecidableEq, Repr

/-- The `CallbackSet(callback)` constructor. -/
def CallbackSet.ofSingle (cb : Nat) : CallbackSet := ⟨[cb]⟩

/-- Modelled from the spec: append, no deduplication. -/
def CallbackSet.add (s : CallbackSet) (cb : Nat) : CallbackSet :=
  ⟨s.callbacks ++ [cb]⟩

/-- Modelled from the spec: remove the first matching occurrence. -/
def CallbackSet.remove (s : CallbackSet) (cb : Nat) : CallbackSet :=
  ⟨s.callbacks.erase cb⟩

/-- Modelled from the spec: the registration-ordered callbacks a
`dispatch` call would invoke (execution itself is external). -/
def CallbackSet.dispatch (s : CallbackSet) : List Nat :=
  s.callbacks

/-- One entry of the sorted callback-set vector: `CSPair` in the source,
keyed by the signal's identity address. -/
abbrev CSPair := Nat × CallbackSet

/-- `Atom::CSVector`. -/
abbrev CSVector := List CSPair

/-- The `Atom` instance struct: the shared member mapping `m_members`
(a dict, modelled as an association list with unique keys looked up via
`List.lookup`), the slot array `m_values` (length fixed by `tp_alloc`),
and the lazily allocated sorted signal table `m_cbsets` (`none` models
the null pointer). The weak-reference list is irrelevant here and
omitted. -/
structure Atom (Obj : Type) where
  m_members : List (String × Member Obj)
  m_values : List (Option Obj)
  m_cbsets : Option CSVector

/-- The process-wide member registry: a dict keyed by class (type)
identity, modelled as an association list from a type identity (`Nat`)
to its member mapping. -/
abbrev Registry (Obj : Type) := List (Nat × List (String × Member Obj))

/-- `Atom::LookupMembers`: return the registered mapping for `type`, or
fail — the source raises `cppy::type_error( "type has no registered
members" )`. -/
def Atom.LookupMembers {Obj : Type} (registry : Registry Obj) (type : Nat) :
    Except Err (List (String × Member Obj)) :=
  match registry.lookup type with
  | some members => .ok members
  | none => .error (.typeError "type has no registered members")

/-- The spec's `ConfigurationError` ("class has no registered members"),
as the source realizes it: a host `TypeError` carrying this message,
raised only by `Atom::LookupMembers`. -/
def configurationError : Err :=
  .typeError "type has no registered members"

/-- `Atom_new`: look up the members for the type (propagating the
failure when the class is unregistered), allocate the instance with one
item slot per member (`tp_alloc` zeroes them, so every slot starts
unset), and store the shared member mapping. -/
def Atom_new {Obj : Type} (registry : Registry Obj) (type : Nat) :
    Except Err (Atom Obj) :=
  match Atom.LookupMembers registry type with
  | .error e => .error e
  | .ok members =>
      .ok { m_members := members
            m_values := List.replicate members.length none
            m_cbsets := none }

/-- Outcome of `Atom_getattro`: a value, a raised error, or fallthrough
to `PyObject_GenericGetAttr` for names with no registered member. -/
inductive GetOut (Obj : Type) where
  | value (v : Obj)
  | error (e : Err)
  | generic

/-- `Atom_getattro`: look the name up in the member dict; if found and
the slot holds a value, return it; otherwise compute the member's
default value, store it in the slot and return it. Returns the result,
the (possibly updated) instance, and an instrumentation flag recording
whether `defaultValue` was invoked on this call. -/
def Atom_getattro {Obj : Type} (self : Atom Obj) (name : String) :
    GetOut Obj × Atom Obj × Bool :=
  match self.m_members.lookup name with
  | some member =>
      match self.m_values.getD member.index none with
      | some v => (.value v, self, false)
      | none =>
          match member.defaultValue name with
          | .error e => (.error e, self, true)
          | .ok v =>
              (.value v,
               { self with m_values := self.m_values.set member.index (some v) },
               true)
  | none => (.generic, self, false)

/-- Outcome of `Atom_setattro`: success (`0`), a raised error (`-1`), or
fallthrough to `PyObject_GenericSetAttr`. -/
inductive SetOut where
  | ok
  | error (e : Err)
  | generic
deriving DecidableEq, Repr

/-- `Atom_setattro`: look the name up in the member dict; if found,
a null `value` (attribute deletion) clears the slot without validating,
otherwise `validate` runs first and only its successful result is
written to the slot. Returns the outcome, the (possibly updated)
instance, and an instrumentation flag recording whether `validate` was
invoked on this call. -/
def Atom_setattro {Obj : Type} (self : Atom Obj) (name : String)
    (value : Option Obj) : SetOut × Atom Obj × Bool :=
  match self.m_members.lookup name with
  | some member =>
      match value with
      | none =>
          (.ok, { self with m_values := self.m_values.set member.index none },
           false)
      | some v =>
          match member.validate name v with
          | .error e => (.error e, self, true)
          | .ok w =>
              (.ok,
               { self with m_values := self.m_values.set member.index (some w) },
               true)
  | none => (.generic, self, false)

/-- Outcome of `Atom_init`: success with the updated instance, a raised
error, or a keyword whose name has no registered member falling through
to `PyObject_GenericSetAttr` (whose behavior is the host's, recorded
with the state at that point). -/
inductive InitOut (Obj : Type) where
  | ok (a : Atom Obj)
  | error (e : Err)
  | generic (name : String) (v : Obj) (a : Atom Obj)

/-- The keyword loop of `Atom_init`: each keyword/value pair goes
through `PyObject_SetAttr`, i.e. the type's `tp_setattro` slot
(`Atom_setattro`); the first failure aborts with that error. -/
def applyKwargs {Obj : Type} (self : Atom Obj) :
    List (String × Obj) → InitOut Obj
  | [] => .ok self
  | (name, v) :: rest =>
      match Atom_setattro self name (some v) with
      | (.ok, a, _) => applyKwargs a rest
      | (.error e, _, _) => .error e
      | (.generic, a, _) => .generic name v a

/-- `Atom_init`: any positional argument is a `TypeError`; keyword
arguments are applied through the attribute-set path. -/
def Atom_init {Obj : Type} (self : Atom Obj) (args : List (PyVal Obj))
    (kwargs : List (String × Obj)) : InitOut Obj :=
  if args.length > 0 then
    .error (.typeError "__init__() takes no positional arguments")
  else
    applyKwargs self kwargs

/-- `lowerBound`: `std::lower_bound` over the sorted vector with
`CmpLess` (pointer `<` on the signal identity) — the index of the first
entry whose key is not less than `sig` (the length when there is none).
`std::lower_bound` is specified only on partitioned ranges, where it
returns exactly this index. -/
def lowerBound (cbsets : CSVector) (sig : Nat) : Nat :=
  match cbsets with
  | [] => 0
  | p :: rest => if p.1 < sig then lowerBound rest sig + 1 else 0

/-- `binaryFind`: `lowerBound`, then `CmpEqual` (pointer equality)
against the entry there; the end iterator is `none`. -/
def binaryFind (cbsets : CSVector) (sig : Nat) : Option Nat :=
  match cbsets[lowerBound cbsets sig]? with
  | some p => if p.1 = sig then some (lowerBound cbsets sig) else none
  | none => none

/-- The table update of `Atom::connect`: at the lower bound, either the
entry's key equals the signal (append to its callback set in place) or a
new one-callback entry is inserted there. -/
def connectCS (cbsets : CSVector) (sig : Nat) (cb : Nat) : CSVector :=
  let i := lowerBound cbsets sig
  match cbsets[i]? with
  | some p =>
      if p.1 = sig then cbsets.set i (p.1, p.2.add cb)
      else cbsets.insertIdx i (sig, CallbackSet.ofSingle cb)
  | none => cbsets.insertIdx i (sig, CallbackSet.ofSingle cb)

/-- `Atom::connect`: allocate the vector on first use, then update it. -/
def Atom.connect {Obj : Type} (self : Atom Obj) (sig : Nat) (cb : Nat) :
    Atom Obj :=
  { self with m_cbsets := some (connectCS (self.m_cbsets.getD []) sig cb) }

/-- `Atom::disconnect()` (no arguments): swap the whole vector with an
empty temporary; a never-allocated table stays null. -/
def Atom.disconnect {Obj : Type} (self : Atom Obj) : Atom Obj :=
  match self.m_cbsets with
  | none => self
  | some _ => { self with m_cbsets := some [] }

/-- `Atom::disconnect( sig )`: erase the entry `binaryFind` locates, if
any. -/
def Atom.disconnectSignal {Obj : Type} (self : Atom Obj) (sig : Nat) :
    Atom Obj :=
  match self.m_cbsets with
  | none => self
  | some cbsets =>
      match binaryFind cbsets sig with
      | some i => { self with m_cbsets := some (cbsets.eraseIdx i) }
      | none => self

/-- `Atom::disconnect( sig, callback )`: remove the callback from the
entry `binaryFind` locates, if any. -/
def Atom.disconnectCallback {Obj : Type} (self : Atom Obj) (sig : Nat)
    (cb : Nat) : Atom Obj :=
  match self.m_cbsets with
  | none => self
  | some cbsets =>
      match binaryFind cbsets sig with
      | some i =>
          match cbsets[i]? with
          | some p =>
              { self with m_cbsets := some (cbsets.set i (p.1, p.2.remove cb)) }
          | none => self
      | none => self

/-- `Atom::emit`: the registration-ordered callbacks the located entry's
`dispatch` would invoke (empty when the table is null or has no entry
for the signal), paired with the instance, which `emit` itself never
mutates. -/
def Atom.emit {Obj : Type} (self : Atom Obj) (sig : Nat) :
    List Nat × Atom Obj :=
  match self.m_cbsets with
  | none => ([], self)
  | some cbsets =>
      match binaryFind cbsets sig with
      | some i =>
          match cbsets[i]? with
          | some p => (p.2.dispatch, self)
          | none => ([], self)
      | none => ([], self)

/-- `Atom_connect`: parse exactly two arguments (`"OO"`), require the
first to be a `Signal` and the second callable, then delegate to
`Atom::connect` and return `None` (modelled as the updated instance). -/
def Atom_connect {Obj : Type} (self : Atom Obj) (args : List (PyVal Obj)) :
    Except Err (Atom Obj) :=
  match args with
  | [sig, callback] =>
      match sig with
      | .sig addr =>
          match callback with
          | .callable cbid => .ok (self.connect addr cbid)
          | _ => .error (.typeError "expected callable")
      | _ => .error (.typeError "expected Signal")
  | _ => .error (.typeError "connect() argument parsing failed")

/-- `Atom_emit`: require at least one positional argument and that the
first is a `Signal`; the rest of the tuple and the keywords are
forwarded verbatim to the callbacks (whose execution is external), so
the model returns the dispatched callback list from `Atom::emit`. -/
def Atom_emit {Obj : Type} (self : Atom Obj) (args : List (PyVal Obj)) :
    Except Err (List Nat × Atom Obj) :=
  match args with
  | [] => .error (.typeError "emit() takes at least 1 argument (0 given)")
  | sig :: _rest =>
      match sig with
      | .sig addr => .ok (self.emit addr)
      | .callable _ => .error (.typeError "expected Signal")
      | .plain _ => .error (.typeError "expected Signal")

/-- The signal-table keys, in vector order. -/
def csKeys (cbsets : CSVector) : List Nat :=
  cbsets.map Prod.fst

/-- The sortedness invariant of the signal table: keys strictly
increasing in vector order (so in particular pairwise distinct). -/
def CSSorted (cbsets : CSVector) : Prop :=
  List.Sorted (· < ·) (csKeys cbsets)

/-- The invariant at the instance level: a null table is vacuously
sorted. -/
def TableSorted {Obj : Type} (self : Atom Obj) : Prop :=
  CSSorted (self.m_cbsets.getD [])

/-- The abstract (order-independent) view of a signal's callback set on
an instance: the first entry with that key, if any. -/
def sigCallbacks {Obj : Type} (self : Atom Obj) (sig : Nat) :
    Option (List Nat) :=
  ((self.m_cbsets.getD []).find? (fun p => p.1 == sig)).map (·.2.callbacks)

/-- One connect/disconnect operation on the signal table, for stating
the invariant over arbitrary operation sequences. -/
inductive SigOp where
  | connect (sig cb : Nat)
  | disconnectAll
  | disconnectSignal (sig : Nat)
  | disconnectCallback (sig cb : Nat)
deriving DecidableEq, Repr

/-- Apply a sequence of connect/disconnect operations in order. -/
def applySigOps {Obj : Type} (self : Atom Obj) : List SigOp → Atom Obj
  | [] => self
  | op :: rest =>
      let a := match op with
        | .connect sig cb => self.connect sig cb
        | .disconnectAll => self.disconnect
        | .disconnectSignal sig => self.disconnectSignal sig
        | .disconnectCallback sig cb => self.disconnectCallback sig cb
      applySigOps a rest

/-! ### Helper lemmas about the sorted callback-set vector -/

theorem csKeys_nil : csKeys [] = [] := rfl

theorem csKeys_cons (p : CSPair) (rest : CSVector) :
    csKeys (p :: rest) = p.1 :: csKeys rest := rfl

theorem lowerBound_cons_lt {k sig : Nat} {s : CallbackSet} {rest : CSVector}
    (h : k < sig) :
    lowerBound ((k, s) :: rest) sig = lowerBound rest sig + 1 := by
  simp [lowerBound, h]

theorem lowerBound_cons_ge {k sig : Nat} {s : CallbackSet} {rest : CSVector}
    (h : ¬ k < sig) :
    lowerBound ((k, s) :: rest) sig = 0 := by
  simp [lowerBound, h]

theorem connectCS_nil (sig cb : Nat) :
    connectCS [] sig cb = [(sig, CallbackSet.ofSingle cb)] := rfl

theorem connectCS_cons_lt {k sig cb : Nat} {s : CallbackSet} {rest : CSVector}
    (h : k < sig) :
    connectCS ((k, s) :: rest) sig cb = (k, s) :: connectCS rest sig cb := by
  simp only [connectCS, lowerBound_cons_lt h, List.getElem?_cons_succ]
  cases hrest : rest[lowerBound rest sig]? with
  | none => simp [List.insertIdx_succ_cons]
  | some p =>
      by_cases hp : p.1 = sig
      · simp [hp, List.set_cons_succ]
      · simp [hp, List.insertIdx_succ_cons]

theorem connectCS_cons_eq {sig cb : Nat} {s : CallbackSet} {rest : CSVector} :
    connectCS ((sig, s) :: rest) sig cb = (sig, s.add cb) :: rest := by
  simp [connectCS, lowerBound_cons_ge (Nat.lt_irrefl sig)]

theorem connectCS_cons_gt {k sig cb : Nat} {s : CallbackSet} {rest : CSVector}
    (h : sig < k) :
    connectCS ((k, s) :: rest) sig cb =
      (sig, CallbackSet.ofSingle cb) :: (k, s) :: rest := by
  simp [connectCS, lowerBound_cons_ge (Nat.lt_asymm h), Ne.symm (Nat.ne_of_lt h)]

theorem mem_csKeys_connectCS {l : CSVector} {sig cb a : Nat}
    (ha : a ∈ csKeys (connectCS l sig cb)) : a = sig ∨ a ∈ csKeys l := by
  induction l with
  | nil => simpa [connectCS_nil, csKeys] using ha
  | cons p rest ih =>
      obtain ⟨k, s⟩ := p
      rcases Nat.lt_trichotomy k sig with hk | hk | hk
      · rw [connectCS_cons_lt hk, csKeys_cons] at ha
        rcases List.mem_cons.mp ha with h | h
        · exact Or.inr (by simp [csKeys_cons, h])
        · rcases ih h with h' | h'
          · exact Or.inl h'
          · exact Or.inr (by simp [csKeys_cons, h'])
      · subst hk
        rw [connectCS_cons_eq, csKeys_cons] at ha
        rcases List.mem_cons.mp ha with h | h
        · exact Or.inl h
        · exact Or.inr (by simp [csKeys_cons, h])
      · rw [connectCS_cons_gt hk, csKeys_cons] at ha
        rcases List.mem_cons.mp ha with h | h
        · exact Or.inl h
        · exact Or.inr (by simpa [csKeys_cons] using h)

theorem sorted_connectCS {l : CSVector} (h : CSSorted l) (sig cb : Nat) :
    CSSorted (connectCS l sig cb) := by
  induction l with
  | nil => simp [connectCS_nil, CSSorted, csKeys]
  | cons p rest ih =>
      obtain ⟨k, s⟩ := p
      simp only [CSSorted, csKeys_cons, List.sorted_cons] at h
      rcases Nat.lt_trichotomy k sig with hk | hk | hk
      · rw [connectCS_cons_lt hk]
        simp only [CSSorted, csKeys_cons, List.sorted_cons]
        refine ⟨fun b hb => ?_, ih h.2⟩
        rcases mem_csKeys_connectCS hb with rfl | hb'
        · exact hk
        · exact h.1 b hb'
      · subst hk
        rw [connectCS_cons_eq]
        simp only [CSSorted, csKeys_cons, List.sorted_cons]
        exact h
      · rw [connectCS_cons_gt hk]
        simp only [CSSorted, csKeys_cons, List.sorted_cons]
        refine ⟨fun b hb => ?_, h⟩
        rcases List.mem_cons.mp hb with rfl | hb'
        · exact hk
        · exact Nat.lt_trans hk (h.1 b hb')

theorem find?_sig_cons_neg {k sig : Nat} {s : CallbackSet} {rest : CSVector}
    (h : k ≠ sig) :
    List.find? (fun p => p.1 == sig) ((k, s) :: rest) =
      List.find? (fun p => p.1 == sig) rest :=
  List.find?_cons_of_neg _ (by simp [h])

theorem find?_sig_cons_pos {sig : Nat} {s : CallbackSet} {rest : CSVector} :
    List.find? (fun p => p.1 == sig) ((sig, s) :: rest) = some (sig, s) :=
  List.find?_cons_of_pos _ (by simp)

theorem find?_connectCS {l : CSVector} (h : CSSorted l) (sig cb : Nat) :
    ((connectCS l sig cb).find? (fun p => p.1 == sig)).map (·.2.callbacks) =
      some (((l.find? (fun p => p.1 == sig)).map (·.2.callbacks)).getD []
              ++ [cb]) := by
  induction l with
  | nil =>
      simp [connectCS_nil, find?_sig_cons_pos, CallbackSet.ofSingle]
  | cons p rest ih =>
      obtain ⟨k, s⟩ := p
      simp only [CSSorted, csKeys_cons, List.sorted_cons] at h
      rcases Nat.lt_trichotomy k sig with hk | hk | hk
      · rw [connectCS_cons_lt hk]
        rw [find?_sig_cons_neg (Nat.ne_of_lt hk), find?_sig_cons_neg (Nat.ne_of_lt hk)]
        exact ih h.2
      · subst hk
        rw [connectCS_cons_eq]
        rw [find?_sig_cons_pos, find?_sig_cons_pos]
        simp [CallbackSet.add]
      · rw [connectCS_cons_gt hk]
        rw [find?_sig_cons_pos]
        have hnone : List.find? (fun p => p.1 == sig) ((k, s) :: rest) = none := by
          rw [List.find?_eq_none]
          intro x hx
          rcases List.mem_cons.mp hx with rfl | hx'
          · simp [Ne.symm (Nat.ne_of_lt hk)]
          · have hkx : k < x.1 := h.1 x.1 (List.mem_map_of_mem Prod.fst hx')
            simp [Ne.symm (Nat.ne_of_lt (Nat.lt_trans hk hkx))]
        simp [hnone, CallbackSet.ofSingle]

theorem binaryFind_cons_lt {k sig : Nat} {s : CallbackSet} {rest : CSVector}
    (h : k < sig) :
    binaryFind ((k, s) :: rest) sig = (binaryFind rest sig).map (· + 1) := by
  simp only [binaryFind, lowerBound_cons_lt h, List.getElem?_cons_succ]
  cases hrest : rest[lowerBound rest sig]? with
  | none => simp
  | some p =>
      by_cases hp : p.1 = sig
      · simp [hp]
      · simp [hp]

theorem binaryFind_cons_ge {k sig : Nat} {s : CallbackSet} {rest : CSVector}
    (h : ¬ k < sig) :
    binaryFind ((k, s) :: rest) sig = if k = sig then some 0 else none := by
  simp [binaryFind, lowerBound_cons_ge h]

theorem binaryFind_isSome_iff {l : CSVector} (h : CSSorted l) (sig : Nat) :
    (binaryFind l sig).isSome ↔ sig ∈ csKeys l := by
  induction l with
  | nil => simp [binaryFind, csKeys]
  | cons p rest ih =>
      obtain ⟨k, s⟩ := p
      simp only [CSSorted, csKeys_cons, List.sorted_cons] at h
      by_cases hk : k < sig
      · rw [binaryFind_cons_lt hk, csKeys_cons]
        rw [List.mem_cons]
        have : ¬ sig = k := Ne.symm (Nat.ne_of_lt hk)
        simp only [this, false_or]
        rw [← ih h.2]
        cases binaryFind rest sig <;> simp
      · rw [binaryFind_cons_ge hk, csKeys_cons, List.mem_cons]
        by_cases he : k = sig
        · simp [he]
        · have h1 : sig ∉ csKeys rest := fun hmem => hk (h.1 sig hmem)
          have h2 : ¬ sig = k := fun hs => he hs.symm
          simp [he, h1, h2]

theorem sorted_eraseIdx {l : CSVector} (h : CSSorted l) (i : Nat) :
    CSSorted (l.eraseIdx i) :=
  List.Pairwise.sublist ((List.eraseIdx_sublist l i).map Prod.fst) h

theorem set_self_of_getElem? {α : Type _} {l : List α} {i : Nat} {a : α}
    (h : l[i]? = some a) : l.set i a = l := by
  induction l generalizing i with
  | nil => simp at h
  | cons x xs ih =>
      cases i with
      | zero =>
          simp only [List.getElem?_cons_zero, Option.some.injEq] at h
          simp [h]
      | succ n =>
          simp only [List.getElem?_cons_succ] at h
          simp [List.set_cons_succ, ih h]

theorem csKeys_set_same {l : CSVector} {i : Nat} {p : CSPair} {s : CallbackSet}
    (h : l[i]? = some p) : csKeys (l.set i (p.1, s)) = csKeys l := by
  unfold csKeys
  rw [List.map_set]
  exact set_self_of_getElem? (by simp [h])

theorem tableSorted_connect {Obj : Type} {a : Atom Obj} (h : TableSorted a)
    (sig cb : Nat) : TableSorted (a.connect sig cb) := by
  simpa [TableSorted, Atom.connect] using
    sorted_connectCS (l := a.m_cbsets.getD []) h sig cb

theorem tableSorted_disconnect {Obj : Type} {a : Atom Obj} (h : TableSorted a) :
    TableSorted a.disconnect := by
  unfold Atom.disconnect
  cases hc : a.m_cbsets with
  | none => exact h
  | some cbsets => simp [TableSorted, CSSorted, csKeys]

theorem tableSorted_disconnectSignal {Obj : Type} {a : Atom Obj}
    (h : TableSorted a) (sig : Nat) : TableSorted (a.disconnectSignal sig) := by
  unfold Atom.disconnectSignal
  cases hc : a.m_cbsets with
  | none => exact h
  | some cbsets =>
      dsimp only
      have hs : CSSorted cbsets := by simpa [TableSorted, hc] using h
      cases hb : binaryFind cbsets sig with
      | none => exact h
      | some i => simpa [TableSorted] using sorted_eraseIdx hs i

theorem tableSorted_disconnectCallback {Obj : Type} {a : Atom Obj}
    (h : TableSorted a) (sig cb : Nat) :
    TableSorted (a.disconnectCallback sig cb) := by
  unfold Atom.disconnectCallback
  cases hc : a.m_cbsets with
  | none => exact h
  | some cbsets =>
      dsimp only
      have hs : CSSorted cbsets := by simpa [TableSorted, hc] using h
      cases hb : binaryFind cbsets sig with
      | none => exact h
      | some i =>
          dsimp only
          cases hp : cbsets[i]? with
          | none => exact h
          | some p =>
              simpa [TableSorted, CSSorted, csKeys_set_same hp] using hs

theorem tableSorted_applySigOps {Obj : Type} {a : Atom Obj} (h : TableSorted a)
    (ops : List SigOp) : TableSorted (applySigOps a ops) := by
  induction ops generalizing a with
  | nil => exact h
  | cons op rest ih =>
      cases op with
      | connect sig cb => exact ih (tableSorted_connect h sig cb)
      | disconnectAll => exact ih (tableSorted_disconnect h)
      | disconnectSignal sig => exact ih (tableSorted_disconnectSignal h sig)
      | disconnectCallback sig cb =>
          exact ih (tableSorted_disconnectCallback h sig cb)

theorem m_values_connect {Obj : Type} (a : Atom Obj) (sig cb : Nat) :
    (a.connect sig cb).m_values = a.m_values := rfl

theorem m_values_disconnect {Obj : Type} (a : Atom Obj) :
    a.disconnect.m_values = a.m_values := by
  unfold Atom.disconnect
  cases a.m_cbsets <;> rfl

theorem m_values_disconnectSignal {Obj : Type} (a : Atom Obj) (sig : Nat) :
    (a.disconnectSignal sig).m_values = a.m_values := by
  unfold Atom.disconnectSignal
  cases a.m_cbsets with
  | none => rfl
  | some cbsets =>
      dsimp only
      cases binaryFind cbsets sig <;> rfl

theorem m_values_disconnectCallback {Obj : Type} (a : Atom Obj) (sig cb : Nat) :
    (a.disconnectCallback sig cb).m_values = a.m_values := by
  unfold Atom.disconnectCallback
  cases a.m_cbsets with
  | none => rfl
  | some cbsets =>
      dsimp only
      cases binaryFind cbsets sig with
      | none => rfl
      | some i =>
          dsimp only
          cases cbsets[i]? <;> rfl

theorem m_values_applySigOps {Obj : Type} (a : Atom Obj) (ops : List SigOp) :
    (applySigOps a ops).m_values = a.m_values := by
  induction ops generalizing a with
  | nil => rfl
  | cons op rest ih =>
      cases op with
      | connect sig cb => rw [applySigOps, ih, m_values_connect]
      | disconnectAll => rw [applySigOps, ih, m_values_disconnect]
      | disconnectSignal sig => rw [applySigOps, ih, m_values_disconnectSignal]
      | disconnectCallback sig cb =>
          rw [applySigOps, ih, m_values_disconnectCallback]

theorem emit_eq_nil_of_not_mem {Obj : Type} {a : Atom Obj} (h : TableSorted a)
    {sig : Nat} (hmem : ∀ cbsets, a.m_cbsets = some cbsets → sig ∉ csKeys cbsets) :
    a.emit sig = ([], a) := by
  unfold Atom.emit
  cases hc : a.m_cbsets with
  | none => rfl
  | some cbsets =>
      dsimp only
      have hs : CSSorted cbsets := by simpa [TableSorted, hc] using h
      have hnone : binaryFind cbsets sig = none := by
        have hiff := (binaryFind_isSome_iff hs sig).not.mpr (hmem cbsets hc)
        simpa [Option.not_isSome_iff_eq_none] using hiff
      simp [hnone]

theorem sigCallbacks_connect {Obj : Type} {a : Atom Obj} (h : TableSorted a)
    (sig cb : Nat) :
    sigCallbacks (a.connect sig cb) sig =
      some ((sigCallbacks a sig).getD [] ++ [cb]) := by
  unfold sigCallbacks Atom.connect
  simpa using find?_connectCS (l := a.m_cbsets.getD []) h sig cb

theorem setattro_length {Obj : Type} (a : Atom Obj) (name : String)
    (v : Option Obj) :
    ((Atom_setattro a name v).2.1).m_values.length = a.m_values.length := by
  unfold Atom_setattro
  cases a.m_members.lookup name with
  | none => rfl
  | some m =>
      dsimp only
      cases v with
      | none => simp
      | some x =>
          dsimp only
          cases m.validate name x <;> simp

theorem getattro_length {Obj : Type} (a : Atom Obj) (name : String) :
    ((Atom_getattro a name).2.1).m_values.length = a.m_values.length := by
  unfold Atom_getattro
  cases a.m_members.lookup name with
  | none => rfl
  | some m =>
      dsimp only
      cases a.m_values.getD m.index none with
      | some v => rfl
      | none =>
          dsimp only
          cases m.defaultValue name <;> simp

theorem emit_snd {Obj : Type} (a : Atom Obj) (sig : Nat) : (a.emit sig).2 = a := by
  unfold Atom.emit
  cases a.m_cbsets with
  | none => rfl
  | some cbsets =>
      dsimp only
      cases binaryFind cbsets sig with
      | none => rfl
      | some i =>
          dsimp only
          cases cbsets[i]? <;> rfl

theorem applyKwargs_length {Obj : Type} :
    ∀ (kwargs : List (String × Obj)) (a a' : Atom Obj),
      applyKwargs a kwargs = .ok a' →
      a'.m_values.length = a.m_values.length := by
  intro kwargs
  induction kwargs with
  | nil =>
      intro a a' h
      simp only [applyKwargs, InitOut.ok.injEq] at h
      subst h
      rfl
  | cons kv rest ih =>
      intro a a' h
      obtain ⟨name, v⟩ := kv
      unfold applyKwargs at h
      rcases hs : Atom_setattro a name (some v) with ⟨out, a2, flag⟩
      rw [hs] at h
      cases out with
      | ok =>
          dsimp only at h
          have h1 := ih a2 a' h
          have h2 := setattro_length a name (some v)
          rw [hs] at h2
          exact h1.trans h2
      | error e => simp at h
      | generic => simp at h

/-- The number of registered members of a class: `PyDict_Size` of its
registry entry (0 when the class is unregistered, in which case
construction fails anyway). -/
def memberCount {Obj : Type} (registry : Registry Obj) (type : Nat) : Nat :=
  ((registry.lookup type).getD []).length

/-! ### Concrete fixtures used by the witnesses -/

/-- A concrete member: slot 0, a validator that rejects `99` and
otherwise coerces `v` to `v + 1`, and default value `7`. -/
def m0 : Member Nat :=
  { index := 0
    validate := fun _ v => if v = 99 then .error (.other "bad") else .ok (v + 1)
    defaultValue := fun _ => .ok 7 }

/-- A one-member mapping registering `m0` under the name `x`. -/
def members0 : List (String × Member Nat) := [("x", m0)]

/-- A registry with `members0` registered for the class with identity 0. -/
def registry0 : Registry Nat := [(0, members0)]

/-- A freshly constructed instance: slot unset, signal table null. -/
def a0 : Atom Nat := { m_members := members0, m_values := [none], m_cbsets := none }

/-- An instance whose slot holds 3. -/
def aSet : Atom Nat :=
  { m_members := members0, m_values := [some 3], m_cbsets := none }

/-- An instance with one connection: callback 10 on the signal at
address 5. -/
def aSig : Atom Nat :=
  { m_members := members0, m_values := [none]
    m_cbsets := some [(5, CallbackSet.ofSingle 10)] }

/-! ### Claims -/

/-- C1: for every instance, registered member and new value,
`Atom_setattro` runs `validate` first; on failure the error is
propagated, the instance is left entirely unchanged — so a subsequent
`Atom_getattro` behaves exactly as before the failed set, returning the
prior value or, for an unset slot, the default — and on success the
validated value (not the raw input) is stored at the member's slot
index, replacing any previous value. -/
theorem C1_validate_before_write {Obj : Type} (a : Atom Obj) (name : String)
    (m : Member Obj) (v : Obj) (hm : a.m_members.lookup name = some m) :
    (∀ e, m.validate name v = .error e →
        Atom_setattro a name (some v) = (.error e, a, true) ∧
        Atom_getattro (Atom_setattro a name (some v)).2.1 name =
          Atom_getattro a name) ∧
    (∀ w, m.validate name v = .ok w →
        Atom_setattro a name (some v) =
          (.ok, { a with m_values := a.m_values.set m.index (some w) },
           true)) := by
  constructor
  · intro e he
    constructor
    · simp [Atom_setattro, hm, he]
    · simp [Atom_setattro, hm, he]
  · intro w hw
    simp [Atom_setattro, hm, hw]

theorem C1_witness :
    Atom_setattro a0 "x" (some 99) = (.error (.other "bad"), a0, true) ∧
    Atom_setattro a0 "x" (some 5) =
      (.ok, { a0 with m_values := a0.m_values.set m0.index (some 6) }, true) :=
  ⟨((C1_validate_before_write a0 "x" m0 99 rfl).1 (.other "bad") rfl).1,
   (C1_validate_before_write a0 "x" m0 5 rfl).2 6 rfl⟩

/-- C2: for a registered member whose slot is unset, the first
`Atom_getattro` invokes `defaultValue` (flag `true`), stores the result
in the slot and returns it; the next get on the resulting instance
returns the stored value with the instance unchanged and without
invoking `defaultValue` (flag `false`) — and in general any get on an
instance whose slot holds a value returns it without the default
computation, so the default runs at most once per slot per instance. -/
theorem C2_default_once {Obj : Type} (a : Atom Obj) (name : String)
    (m : Member Obj) (d : Obj) (hm : a.m_members.lookup name = some m)
    (hidx : m.index < a.m_values.length)
    (hunset : a.m_values.getD m.index none = none)
    (hd : m.defaultValue name = .ok d) :
    Atom_getattro a name =
      (.value d, { a with m_values := a.m_values.set m.index (some d) },
       true) ∧
    Atom_getattro { a with m_values := a.m_values.set m.index (some d) } name =
      (.value d, { a with m_values := a.m_values.set m.index (some d) },
       false) ∧
    (∀ (b : Atom Obj) (u : Obj), b.m_members.lookup name = some m →
        b.m_values.getD m.index none = some u →
        Atom_getattro b name = (.value u, b, false)) := by
  refine ⟨?_, ?_, ?_⟩
  · have hunset' : a.m_values[m.index]?.getD none = none := by
      simpa [List.getD_eq_getElem?_getD] using hunset
    simp [Atom_getattro, hm, hunset', hd]
  · have hslot :
        (a.m_values.set m.index (some d))[m.index]?.getD none = some d := by
      simp [List.getElem?_set_self hidx]
    simp [Atom_getattro, hm, hslot]
  · intro b u hb hu
    have hu' : b.m_values[m.index]?.getD none = some u := by
      simpa [List.getD_eq_getElem?_getD] using hu
    simp [Atom_getattro, hb, hu']

theorem C2_witness :
    Atom_getattro a0 "x" =
      (.value 7, { a0 with m_values := a0.m_values.set m0.index (some 7) },
       true) ∧
    Atom_getattro { a0 with m_values := a0.m_values.set m0.index (some 7) } "x" =
      (.value 7, { a0 with m_values := a0.m_values.set m0.index (some 7) },
       false) :=
  ⟨(C2_default_once a0 "x" m0 7 rfl (by decide) rfl rfl).1,
   (C2_default_once a0 "x" m0 7 rfl (by decide) rfl rfl).2.1⟩

/-- C3: a successfully constructed instance has exactly one slot per
registered member of its class, and no operation of the subsystem —
attribute get/set, `__init__` keyword application, connect/disconnect in
any order, emit — ever changes the slot count. -/
theorem C3_slot_sizing {Obj : Type} :
    (∀ (registry : Registry Obj) (type : Nat) (a : Atom Obj),
        Atom_new registry type = .ok a →
        a.m_values.length = memberCount registry type) ∧
    (∀ (a : Atom Obj) (name : String) (v : Option Obj),
        ((Atom_setattro a name v).2.1).m_values.length = a.m_values.length) ∧
    (∀ (a : Atom Obj) (name : String),
        ((Atom_getattro a name).2.1).m_values.length = a.m_values.length) ∧
    (∀ (a : Atom Obj) (args : List (PyVal Obj))
        (kwargs : List (String × Obj)) (a' : Atom Obj),
        Atom_init a args kwargs = .ok a' →
        a'.m_values.length = a.m_values.length) ∧
    (∀ (a : Atom Obj) (ops : List SigOp),
        (applySigOps a ops).m_values.length = a.m_values.length) ∧
    (∀ (a : Atom Obj) (sig : Nat),
        ((a.emit sig).2).m_values.length = a.m_values.length) := by
  refine ⟨?_, setattro_length, getattro_length, ?_, ?_, ?_⟩
  · intro registry type a h
    unfold Atom_new Atom.LookupMembers at h
    cases hr : registry.lookup type with
    | none => rw [hr] at h; simp at h
    | some members =>
        rw [hr] at h
        simp only [Except.ok.injEq] at h
        subst h
        simp [memberCount, hr]
  · intro a args kwargs a' h
    cases args with
    | nil =>
        exact applyKwargs_length kwargs a a' (by simpa [Atom_init] using h)
    | cons x xs => simp [Atom_init] at h
  · intro a ops
    rw [m_values_applySigOps]
  · intro a sig
    rw [emit_snd]

theorem C3_witness :
    (⟨members0, [none], none⟩ : Atom Nat).m_values.length =
      memberCount registry0 0 :=
  C3_slot_sizing.1 registry0 0 _ rfl

/-- C4: looking up the members of a class with no registry entry fails
with the distinguished "no registered members" error (the spec's
`ConfigurationError`, realized by the source as a `TypeError` with
message "type has no registered members"), and `Atom_new` for such a
class propagates that failure, so no instance is constructed. -/
theorem C4_unregistered_class {Obj : Type} (registry : Registry Obj)
    (type : Nat) (h : registry.lookup type = none) :
    Atom.LookupMembers registry type = .error configurationError ∧
    Atom_new registry type = .error configurationError := by
  constructor
  · simp [Atom.LookupMembers, configurationError, h]
  · simp [Atom_new, Atom.LookupMembers, configurationError, h]

theorem C4_witness :
    Atom.LookupMembers ([] : Registry Nat) 0 = .error configurationError ∧
    Atom_new ([] : Registry Nat) 0 = .error configurationError :=
  C4_unregistered_class [] 0 rfl

/-- C5: `Atom_emit` raises a `TypeError` exactly when no argument is
supplied or the first argument is not a `Signal`; with a valid signal
that has no entry in the instance's (sorted) signal table, emit
succeeds, dispatches no callback, and returns the instance unchanged. -/
theorem C5_emit_checks {Obj : Type} (a : Atom Obj) (args : List (PyVal Obj)) :
    ((∃ msg, Atom_emit a args = .error (.typeError msg)) ↔
        (args = [] ∨ ∀ addr, args.head? ≠ some (PyVal.sig addr))) ∧
    (∀ addr rest, args = PyVal.sig addr :: rest → TableSorted a →
        (∀ cbsets, a.m_cbsets = some cbsets → addr ∉ csKeys cbsets) →
        Atom_emit a args = .ok ([], a)) := by
  constructor
  · cases args with
    | nil =>
        constructor
        · intro _; exact Or.inl rfl
        · intro _; exact ⟨"emit() takes at least 1 argument (0 given)", rfl⟩
    | cons first rest =>
        cases first with
        | sig addr =>
            simp only [Atom_emit]
            constructor
            · rintro ⟨msg, hmsg⟩; simp at hmsg
            · rintro (hn | hh)
              · simp at hn
              · exfalso
                simpa using hh addr
        | callable c =>
            simp only [Atom_emit]
            constructor
            · intro _
              right
              intro addr
              simp
            · intro _
              exact ⟨"expected Signal", rfl⟩
        | plain o =>
            simp only [Atom_emit]
            constructor
            · intro _
              right
              intro addr
              simp
            · intro _
              exact ⟨"expected Signal", rfl⟩
  · rintro addr rest rfl hsort hmem
    simp only [Atom_emit]
    rw [emit_eq_nil_of_not_mem hsort hmem]

theorem C5_witness :
    TableSorted aSig ∧ Atom_emit aSig [PyVal.sig 3] = .ok ([], aSig) := by
  have hsort : TableSorted aSig := by
    simp [TableSorted, aSig, CSSorted, csKeys]
  refine ⟨hsort, (C5_emit_checks aSig [PyVal.sig 3]).2 3 [] rfl hsort ?_⟩
  intro cbsets hc
  have hce : cbsets = [(5, CallbackSet.ofSingle 10)] := by
    simpa [aSig] using hc.symm
  subst hce
  decide

/-- C6: `Atom_connect` raises a `TypeError` when the signal argument is
not a `Signal` or the callback is not callable; otherwise it delegates
to `Atom::connect`, which (on a sorted table) gives the signal a new
entry holding exactly `[callback]` when it had none and otherwise
appends the callback to the existing entry's set without
deduplication — captured uniformly by: the callback list for the signal
after connect is the previous list (empty when absent) with the
callback appended. -/
theorem C6_connect_semantics {Obj : Type} (a : Atom Obj)
    (args : List (PyVal Obj)) :
    (∀ s c, args = [s, c] → Signal.TypeCheck s = false →
        Atom_connect a args = .error (.typeError "expected Signal")) ∧
    (∀ s c, args = [s, c] → Signal.TypeCheck s = true →
        PyCallable_Check c = false →
        Atom_connect a args = .error (.typeError "expected callable")) ∧
    (∀ addr cbid, args = [PyVal.sig addr, PyVal.callable cbid] →
        Atom_connect a args = .ok (a.connect addr cbid)) ∧
    (∀ addr cbid, TableSorted a →
        sigCallbacks (a.connect addr cbid) addr =
          some ((sigCallbacks a addr).getD [] ++ [cbid])) := by
  refine ⟨?_, ?_, ?_, ?_⟩
  · rintro s c rfl hs
    cases s with
    | sig addr => simp [Signal.TypeCheck] at hs
    | callable c' => rfl
    | plain o => rfl
  · rintro s c rfl hs hc
    cases s with
    | sig addr =>
        cases c with
        | sig addr' => rfl
        | callable c' => simp [PyCallable_Check] at hc
        | plain o => rfl
    | callable c' => simp [Signal.TypeCheck] at hs
    | plain o => simp [Signal.TypeCheck] at hs
  · rintro addr cbid rfl
    rfl
  · intro addr cbid hsort
    exact sigCallbacks_connect hsort addr cbid

theorem C6_witness :
    Atom_connect a0 [PyVal.sig 5, PyVal.callable 10] = .ok (a0.connect 5 10) ∧
    sigCallbacks (a0.connect 5 10) 5 =
      some ((sigCallbacks a0 5).getD [] ++ [10]) := by
  have hsort : TableSorted a0 := by simp [TableSorted, a0, CSSorted, csKeys]
  exact ⟨(C6_connect_semantics a0 [PyVal.sig 5, PyVal.callable 10]).2.2.1 5 10 rfl,
         (C6_connect_semantics a0 [PyVal.sig 5, PyVal.callable 10]).2.2.2 5 10
           hsort⟩

/-- C7: after `Atom::disconnect()` with no arguments, no signal has a
callback-set entry any more, and emitting any signal on the resulting
instance dispatches no callback and leaves the instance unchanged —
regardless of what sequence of connects preceded (the instance `a` is
arbitrary). -/
theorem C7_full_disconnect {Obj : Type} (a : Atom Obj) (sig : Nat) :
    sigCallbacks a.disconnect sig = none ∧
    a.disconnect.emit sig = ([], a.disconnect) := by
  constructor
  · unfold sigCallbacks Atom.disconnect
    cases hc : a.m_cbsets <;> simp [hc]
  · unfold Atom.emit Atom.disconnect
    cases hc : a.m_cbsets <;> simp [hc, binaryFind, lowerBound]

/-- C8: deleting a registered member's attribute (`Atom_setattro` with a
null value) clears the slot back to unset without invoking `validate`
(flag `false`) and returns success; a following `Atom_getattro`
re-materializes the default value into the slot. -/
theorem C8_delete_clears {Obj : Type} (a : Atom Obj) (name : String)
    (m : Member Obj) (hm : a.m_members.lookup name = some m)
    (hidx : m.index < a.m_values.length) :
    Atom_setattro a name none =
      (.ok, { a with m_values := a.m_values.set m.index none }, false) ∧
    (∀ d, m.defaultValue name = .ok d →
        Atom_getattro { a with m_values := a.m_values.set m.index none }
            name =
          (.value d,
           { a with
             m_values := (a.m_values.set m.index none).set m.index (some d) },
           true)) := by
  constructor
  · simp [Atom_setattro, hm]
  · intro d hd
    have hslot : (a.m_values.set m.index none)[m.index]?.getD none = none := by
      simp [List.getElem?_set_self hidx]
    simp [Atom_getattro, hm, hslot, hd]

theorem C8_witness :
    Atom_setattro aSet "x" none =
      (.ok, { aSet with m_values := aSet.m_values.set m0.index none },
       false) ∧
    Atom_getattro { aSet with m_values := aSet.m_values.set m0.index none }
        "x" =
      (.value 7,
       { aSet with
         m_values := (aSet.m_values.set m0.index none).set m0.index (some 7) },
       true) :=
  ⟨(C8_delete_clears aSet "x" m0 rfl (by decide)).1,
   (C8_delete_clears aSet "x" m0 rfl (by decide)).2 7 rfl⟩

/-- C9: starting from any instance whose signal table satisfies the
sortedness invariant (as every freshly constructed instance does, its
table being null), any sequence of connect/disconnect operations
preserves it: the table stays strictly sorted by signal identity
address, its keys are pairwise distinct (at most one entry per signal),
and `binaryFind` finds an entry exactly when the signal has one. -/
theorem C9_table_invariant {Obj : Type} (a : Atom Obj) (ops : List SigOp)
    (h : TableSorted a) :
    TableSorted (applySigOps a ops) ∧
    (∀ cbsets, (applySigOps a ops).m_cbsets = some cbsets →
        (csKeys cbsets).Nodup ∧
        ∀ sig, (binaryFind cbsets sig).isSome ↔ sig ∈ csKeys cbsets) := by
  have hs := tableSorted_applySigOps h ops
  refine ⟨hs, ?_⟩
  intro cbsets hc
  have hsort : CSSorted cbsets := by simpa [TableSorted, hc] using hs
  exact ⟨List.Pairwise.imp (fun hab => Nat.ne_of_lt hab) hsort,
         fun sig => binaryFind_isSome_iff hsort sig⟩

theorem C9_witness :
    TableSorted
      (applySigOps a0
        [SigOp.connect 5 10, SigOp.connect 3 4, SigOp.disconnectSignal 5]) :=
  (C9_table_invariant a0
      [SigOp.connect 5 10, SigOp.connect 3 4, SigOp.disconnectSignal 5]
      (by simp [TableSorted, a0, CSSorted, csKeys])).1

/-- C10: `Atom_init` raises a `TypeError` whenever positional arguments
are supplied, and applies each keyword argument through the attribute
set path (`tp_setattro`): a keyword naming a registered member is
validated, a failing validation aborts initialization with that error,
and a successful validation stores the validated value before the
remaining keywords are processed. -/
theorem C10_init_semantics {Obj : Type} (a : Atom Obj) :
    (∀ (args : List (PyVal Obj)) (kwargs : List (String × Obj)),
        args ≠ [] →
        Atom_init a args kwargs =
          .error (.typeError "__init__() takes no positional arguments")) ∧
    (∀ (name : String) (v : Obj) (rest : List (String × Obj))
        (m : Member Obj), a.m_members.lookup name = some m →
        (∀ e, m.validate name v = .error e →
            Atom_init a [] ((name, v) :: rest) = .error e) ∧
        (∀ w, m.validate name v = .ok w →
            Atom_init a [] ((name, v) :: rest) =
              applyKwargs
                { a with m_values := a.m_values.set m.index (some w) }
                rest)) := by
  constructor
  · intro args kwargs hne
    cases args with
    | nil => exact absurd rfl hne
    | cons x xs => simp [Atom_init]
  · intro name v rest m hm
    constructor
    · intro e he
      simp [Atom_init, applyKwargs, Atom_setattro, hm, he]
    · intro w hw
      simp [Atom_init, applyKwargs, Atom_setattro, hm, hw]

theorem C10_witness :
    Atom_init a0 [PyVal.plain 0] [] =
      .error (.typeError "__init__() takes no positional arguments") ∧
    Atom_init a0 [] [("x", 99)] = .error (.other "bad") ∧
    Atom_init a0 [] [("x", 5)] =
      applyKwargs { a0 with m_values := a0.m_values.set m0.index (some 6) }
        [] :=
  ⟨(C10_init_semantics a0).1 [PyVal.plain 0] [] (by simp),
   ((C10_init_semantics a0).2 "x" 99 [] m0 rfl).1 (.other "bad") rfl,
   ((C10_init_semantics a0).2 "x" 5 [] m0 rfl).2 6 rfl⟩

end AtomSpec
